import Mathlib

/-!
Verification development for the vibe-kanban repository.

Pure functions from the TypeScript sources are shallowly embedded as Lean
definitions (JS strings become Lean strings viewed as lists of characters,
32-bit integer arithmetic is made explicit with `% 2^32`, `null`/`undefined`
become `Option`).  Components of the repository whose source is not part of
the source tree (the terminal orchestrator: session state machine, slugify,
task store) are modelled from the specification, as marked in their doc
comments.
-/

/-! ## Privacy mask (frontend/src/lib/privacyMask.ts) -/

/-- The character class matched by the JavaScript regular expression `\s`
(and hence the complement of `\S`): ECMAScript WhiteSpace and
LineTerminator code points. -/
def isJsWhitespace (c : Char) : Bool :=
  let n := c.toNat
  n = 0x9 || n = 0xA || n = 0xB || n = 0xC || n = 0xD || n = 0x20 ||
  n = 0xA0 || n = 0x1680 || (0x2000 ≤ n && n ≤ 0x200A) ||
  n = 0x2028 || n = 0x2029 || n = 0x202F || n = 0x205F || n = 0x3000 ||
  n = 0xFEFF

/-- Replacement performed by `text.replace(/\S/g, "*")` on one character. -/
def maskChar (c : Char) : Char :=
  if isJsWhitespace c then c else '*'

/-- `maskText` from privacyMask.ts.  `null`/`undefined` are modelled as
`none`; the JS guard `if (!text) return ""` also catches the empty string. -/
def maskText : Option String → String
  | none => ""
  | some s => if s = "" then "" else String.mk (s.data.map maskChar)

/-! ## Input history (frontend/src/hooks/useInputHistory.ts) -/

def MAX_HISTORY_SIZE : Nat := 100

/-- `message.trim()` is falsy exactly when every character of the message is
JS whitespace. -/
def jsTrimmedEmpty (s : String) : Bool :=
  s.data.all isJsWhitespace

/-- The state update performed by `addToHistory` on the history array:
skip blank messages, skip a duplicate of the last entry
(`prev[prev.length - 1] === message`), append (`newHistory`, written inline
here), and keep only the last `MAX_HISTORY_SIZE` entries
(`slice(-MAX_HISTORY_SIZE)`). -/
def addToHistory (prev : List String) (message : String) : List String :=
  if jsTrimmedEmpty message then prev
  else if prev.getLast? = some message then prev
  else if MAX_HISTORY_SIZE < (prev ++ [message]).length then
    (prev ++ [message]).drop ((prev ++ [message]).length - MAX_HISTORY_SIZE)
  else prev ++ [message]

/-! ## Project colors (getProjectColor) -/

def PROJECT_COLORS : List String :=
  ["#EF4444", "#F97316", "#EAB308", "#22C55E", "#06B6D4",
   "#3B82F6", "#8B5CF6", "#EC4899", "#14B8A6", "#6366F1"]

/-- JavaScript `ToInt32`: reduce modulo 2^32 into the signed range. -/
def toInt32 (x : Int) : Int :=
  let r := x % 4294967296
  if r < 2147483648 then r else r - 4294967296

/-- One iteration of the hash loop
`hash = (hash << 5) - hash + charCode; hash = hash & hash`. -/
def hashStep (hash : Int) (code : Nat) : Int :=
  toInt32 (toInt32 (hash * 32) - hash + code)

/-- The string hash accumulated by `getProjectColor`'s loop. -/
def jsStringHash (s : String) : Int :=
  s.data.foldl (fun h c => hashStep h c.toNat) 0

/-- `getProjectColor` from the project-colors module.  The JS guard
`if (customColor) return customColor` is falsy for `null`, `undefined`
and the empty string. -/
def getProjectColor (projectId : String) (customColor : Option String) : String :=
  match customColor with
  | some c =>
    if c ≠ "" then c
    else PROJECT_COLORS.getD ((jsStringHash projectId).natAbs % PROJECT_COLORS.length) ""
  | none =>
    PROJECT_COLORS.getD ((jsStringHash projectId).natAbs % PROJECT_COLORS.length) ""

/-! ## PR status rendering (TaskCard: getPrStatusBadge, getChecksIcon) -/

/-- Modelled from the spec: the pull-request `state` domain
"(open/merged/closed)"; the `MergeStatus` union type itself lives in the
generated shared types, which are not part of the source tree.  The
constructor `openPR` stands for the string literal `"open"`. -/
inductive MergeStatus where
  | openPR
  | merged
  | closed
  deriving DecidableEq, Fintype

/-- Modelled from the spec: the pull-request "checks status" domain consumed
by `getChecksIcon`; the `ChecksStatus` union type lives in the generated
shared types, which are not part of the source tree.  Its values are
`"pending"`, `"success"` and `"failure"`. -/
inductive ChecksStatus where
  | pending
  | success
  | failure
  deriving DecidableEq, Fintype

/-- The three JSX elements `getChecksIcon` can return, identified by their
`aria-label`s ("Checks pending", "Checks passed", "Checks failed"). -/
inductive ChecksIcon where
  | checksPending
  | checksPassed
  | checksFailed
  deriving DecidableEq, Fintype

/-- `getChecksIcon` from TaskCard.tsx: `!status || status === "pending"`
renders the pending icon, `"success"` the passed icon, everything else the
failed icon. -/
def getChecksIcon : Option ChecksStatus → ChecksIcon
  | none => .checksPending
  | some .pending => .checksPending
  | some .success => .checksPassed
  | some .failure => .checksFailed

/-- The string key of a `MergeStatus` value as used to index the `styles`
and `labels` records in `getPrStatusBadge`. -/
def mergeStatusKey : MergeStatus → String
  | .openPR => "open"
  | .merged => "merged"
  | .closed => "closed"

/-- The `styles` record of `getPrStatusBadge` as a partial lookup. -/
def prBadgeStyles (k : String) : Option String :=
  if k = "merged" then some "bg-purple-500/20 text-purple-600 dark:text-purple-400"
  else if k = "closed" then some "bg-gray-500/20 text-gray-600 dark:text-gray-400"
  else none

/-- The `labels` record of `getPrStatusBadge` as a partial lookup. -/
def prBadgeLabels (k : String) : Option String :=
  if k = "merged" then some "Merged"
  else if k = "closed" then some "Closed"
  else none

/-- The span element rendered by `getPrStatusBadge`: its looked-up style
class and its looked-up text label. -/
structure PrBadge where
  style : Option String
  label : Option String
  deriving DecidableEq

/-- `getPrStatusBadge` from TaskCard.tsx: `!status || status === "open"`
returns `null`; otherwise a span styled and labeled via the records. -/
def getPrStatusBadge : Option MergeStatus → Option PrBadge
  | none => none
  | some st =>
    if st = .openPR then none
    else some ⟨prBadgeStyles (mergeStatusKey st), prBadgeLabels (mergeStatusKey st)⟩

/-! ## PR binding error handling (BindPRDialog.tsx) -/

/-- The discriminated error union returned by the `bindPR` API as consumed
by `handleConfirmBind`'s `switch (result.error.type)`. -/
inductive BindPRErrorType where
  | prNotFoundOrNoAccess (prNumber : Nat)
  | githubCliNotInstalled
  | githubCliNotLoggedIn
  | otherError (tag : String)
  deriving DecidableEq

/-- The result value of `attemptsApi.bindPR` as consumed by
`handleConfirmBind`. -/
structure BindResult where
  success : Bool
  error : Option BindPRErrorType
  message : Option String
  deriving DecidableEq

/-- What `handleConfirmBind` does after the single `bindPR` call: resolve
the dialog, show an error message, or (when the early-return guard fired)
nothing. -/
inductive BindOutcome where
  | resolved
  | errorShown (messageKey : String)
  | noAction
  deriving DecidableEq

/-- JS `result.message || t("bindPrDialog.errors.failedToBind")`:
`||` falls through on `null`/`undefined`/empty string. -/
def bindFallbackMessage (msg : Option String) : String :=
  match msg with
  | some m => if m ≠ "" then m else "bindPrDialog.errors.failedToBind"
  | none => "bindPrDialog.errors.failedToBind"

/-- The error message key chosen by the `switch` in `handleConfirmBind`
(the i18n keys passed to `t`). -/
def bindErrorMessage (e : BindPRErrorType) (msg : Option String) : String :=
  match e with
  | .prNotFoundOrNoAccess _ => "bindPrDialog.errors.prNotFoundOrNoAccess"
  | .githubCliNotInstalled => "bindPrDialog.errors.githubCliNotInstalled"
  | .githubCliNotLoggedIn => "bindPrDialog.errors.githubCliNotLoggedIn"
  | .otherError _ => bindFallbackMessage msg

/-- `handleConfirmBind` from BindPRDialog.tsx, given the selected PR number
and the result of the one `bindPR` call it issues.  The second component
counts how many `bindPR` invocations the handler performs. -/
def handleConfirmBind (selectedPr : Option Nat) (result : BindResult) :
    BindOutcome × Nat :=
  match selectedPr with
  | none => (.noAction, 0)
  | some _ =>
    if result.success then (.resolved, 1)
    else
      match result.error with
      | some e => (.errorShown (bindErrorMessage e result.message), 1)
      | none => (.errorShown (bindFallbackMessage result.message), 1)

/-! ## JSON parsing and Linear labels (parseLinearLabels) -/

/-- JSON values.  Numeric literals are kept as their source text; only
their syntactic validity matters here. -/
inductive Json where
  | null
  | bool (b : Bool)
  | num (raw : String)
  | str (s : String)
  | arr (xs : List Json)
  | obj (fields : List (String × Json))

/-- JSON insignificant whitespace: space, tab, line feed, carriage return. -/
def jsonWs (c : Char) : Bool :=
  c = ' ' || c = '\t' || c = '\n' || c = '\r'

def skipWs (cs : List Char) : List Char :=
  cs.dropWhile jsonWs

/-- Value of a hexadecimal digit, if any. -/
def hexVal (c : Char) : Option Nat :=
  if 48 ≤ c.toNat && c.toNat ≤ 57 then some (c.toNat - 48)
  else if 97 ≤ c.toNat && c.toNat ≤ 102 then some (c.toNat - 87)
  else if 65 ≤ c.toNat && c.toNat ≤ 70 then some (c.toNat - 55)
  else none

/-- The single-character JSON string escapes (the character after the
backslash and its replacement).  Code 34 is the double quote, 92 the
backslash, 47 the forward slash. -/
def escapeChar (e : Char) : Option Char :=
  if e.toNat = 34 then some (Char.ofNat 34)
  else if e.toNat = 92 then some (Char.ofNat 92)
  else if e.toNat = 47 then some (Char.ofNat 47)
  else if e = 'b' then some (Char.ofNat 8)
  else if e = 'f' then some (Char.ofNat 12)
  else if e = 'n' then some (Char.ofNat 10)
  else if e = 'r' then some (Char.ofNat 13)
  else if e = 't' then some (Char.ofNat 9)
  else none

/-- Body of a JSON string after the opening quote: returns the decoded
string and the input after the closing quote.  Raw control characters are
rejected; codes 34 and 92 are the double quote and the backslash. -/
def parseStringBody : List Char → List Char → Option (String × List Char)
  | [], _ => none
  | c :: rest, acc =>
    if c.toNat = 34 then some (String.mk acc.reverse, rest)
    else if c.toNat = 92 then
      match rest with
      | [] => none
      | e :: rest2 =>
        if e = 'u' then
          match rest2 with
          | h1 :: h2 :: h3 :: h4 :: rest3 =>
            match hexVal h1, hexVal h2, hexVal h3, hexVal h4 with
            | some a, some b, some c', some d =>
              parseStringBody rest3 (Char.ofNat (((a * 16 + b) * 16 + c') * 16 + d) :: acc)
            | _, _, _, _ => none
          | _ => none
        else
          match escapeChar e with
          | some ec => parseStringBody rest2 (ec :: acc)
          | none => none
    else if c.toNat < 32 then none
    else parseStringBody rest (c :: acc)

def isDigitCh (c : Char) : Bool :=
  48 ≤ c.toNat && c.toNat ≤ 57

/-- Integer part of a JSON number: `0`, or a nonzero digit followed by
digits. -/
def parseIntPart : List Char → Option (List Char × List Char)
  | [] => none
  | c :: r =>
    if c = '0' then some ([c], r)
    else if isDigitCh c then some (c :: r.takeWhile isDigitCh, r.dropWhile isDigitCh)
    else none

/-- Optional fraction part of a JSON number: `.` followed by one or more
digits. -/
def parseFracPart (cs : List Char) : Option (List Char × List Char) :=
  match cs with
  | c :: r =>
    if c = '.' then
      if (r.takeWhile isDigitCh) = [] then none
      else some (c :: r.takeWhile isDigitCh, r.dropWhile isDigitCh)
    else some ([], cs)
  | [] => some ([], [])

/-- Optional exponent part of a JSON number: `e`/`E`, an optional sign, and
one or more digits. -/
def parseExpPart (cs : List Char) : Option (List Char × List Char) :=
  match cs with
  | c :: r =>
    if c = 'e' || c = 'E' then
      let (sgn, r2) :=
        match r with
        | s :: r2 => if s = '+' || s = '-' then ([s], r2) else (([] : List Char), r)
        | [] => ([], [])
      if (r2.takeWhile isDigitCh) = [] then none
      else some (c :: (sgn ++ r2.takeWhile isDigitCh), r2.dropWhile isDigitCh)
    else some ([], cs)
  | [] => some ([], [])

/-- A JSON numeric literal (sign, integer, fraction, exponent), returned as
its source text together with the remaining input. -/
def parseNumberChars (cs : List Char) : Option (String × List Char) :=
  let (sign, cs1) :=
    match cs with
    | c :: r => if c = '-' then (([c] : List Char), r) else ([], cs)
    | [] => ([], cs)
  match parseIntPart cs1 with
  | none => none
  | some (ip, cs2) =>
    match parseFracPart cs2 with
    | none => none
    | some (fp, cs3) =>
      match parseExpPart cs3 with
      | none => none
      | some (ep, cs4) => some (String.mk (sign ++ ip ++ fp ++ ep), cs4)

/-- Parsing mode: a single value, the elements of an array after `[`, or
the members of an object after the opening brace. -/
inductive PMode where
  | value
  | elements (acc : List Json)
  | members (acc : List (String × Json))

/-- Recursive-descent JSON parser with explicit fuel (one unit per nesting
step; the top-level entry point supplies `length + 1`, which never runs out
because every recursive call first consumes at least one character).
Codes 123/125 are the braces, 91/93 the square brackets, 34 the double
quote. -/
def parseCore : Nat → PMode → List Char → Option (Json × List Char)
  | 0, _, _ => none
  | fuel + 1, .value, cs =>
    match skipWs cs with
    | [] => none
    | c :: rest =>
      if c.toNat = 123 then
        match skipWs rest with
        | d :: rest2 =>
          if d.toNat = 125 then some (.obj [], rest2)
          else parseCore fuel (.members []) (d :: rest2)
        | [] => none
      else if c.toNat = 91 then
        match skipWs rest with
        | d :: rest2 =>
          if d.toNat = 93 then some (.arr [], rest2)
          else parseCore fuel (.elements []) (d :: rest2)
        | [] => none
      else if c.toNat = 34 then
        match parseStringBody rest [] with
        | some (s, r) => some (.str s, r)
        | none => none
      else if (c :: rest).take 4 = ['t', 'r', 'u', 'e'] then
        some (.bool true, (c :: rest).drop 4)
      else if (c :: rest).take 5 = ['f', 'a', 'l', 's', 'e'] then
        some (.bool false, (c :: rest).drop 5)
      else if (c :: rest).take 4 = ['n', 'u', 'l', 'l'] then
        some (.null, (c :: rest).drop 4)
      else
        match parseNumberChars (c :: rest) with
        | some (s, r) => some (.num s, r)
        | none => none
  | fuel + 1, .elements acc, cs =>
    match parseCore fuel .value cs with
    | none => none
    | some (v, rest) =>
      match skipWs rest with
      | c :: r2 =>
        if c = ',' then parseCore fuel (.elements (v :: acc)) r2
        else if c.toNat = 93 then some (.arr (v :: acc).reverse, r2)
        else none
      | [] => none
  | fuel + 1, .members acc, cs =>
    match skipWs cs with
    | c :: rest =>
      if c.toNat = 34 then
        match parseStringBody rest [] with
        | some (k, r1) =>
          match skipWs r1 with
          | c2 :: r3 =>
            if c2 = ':' then
              match parseCore fuel .value r3 with
              | some (v, r4) =>
                match skipWs r4 with
                | c3 :: r6 =>
                  if c3 = ',' then parseCore fuel (.members ((k, v) :: acc)) r6
                  else if c3.toNat = 125 then some (.obj ((k, v) :: acc).reverse, r6)
                  else none
                | [] => none
              | none => none
            else none
          | [] => none
        | none => none
      else none
    | [] => none

/-- `JSON.parse` as a total function: `some` on well-formed JSON text
(requiring only whitespace after the value), `none` where `JSON.parse`
throws. -/
def parseJson (s : String) : Option Json :=
  match parseCore (s.length + 1) .value s.data with
  | some (v, rest) => if skipWs rest = [] then some v else none
  | none => none

/-- A Linear label as used by the task card (`label.id`, `label.color`,
`label.name`); the `LinearLabel` type itself lives in the generated shared
types, which are not part of the source tree. -/
structure LinearLabel where
  id : String
  name : String
  color : String
  deriving DecidableEq

/-- First string value of an object field with the given key. -/
def jsonStringField (fields : List (String × Json)) (key : String) : Option String :=
  fields.findSome? fun f =>
    match f.2 with
    | .str s => if f.1 = key then some s else none
    | _ => none

/-- Decode one parsed JSON value as a Linear label.  The TypeScript source
casts the parsed value with `as LinearLabel[]` without checking; this
decoder models the well-typed case. -/
def decodeLinearLabel (j : Json) : Option LinearLabel :=
  match j with
  | .obj fields =>
    match jsonStringField fields "id", jsonStringField fields "name",
        jsonStringField fields "color" with
    | some i, some n, some c => some ⟨i, n, c⟩
    | _, _, _ => none
  | _ => none

def decodeLinearLabels (j : Json) : List LinearLabel :=
  match j with
  | .arr xs => xs.filterMap decodeLinearLabel
  | _ => []

/-- `parseLinearLabels` from the task card: `null` (modelled as `none`) and
the empty string are caught by `if (!labelsJson) return []`, and the
`try`/`catch` around `JSON.parse` turns any parse error into `[]`. -/
def parseLinearLabels (labelsJson : Option String) : List LinearLabel :=
  match labelsJson with
  | none => []
  | some s =>
    if s = "" then []
    else
      match parseJson s with
      | none => []
      | some j => decodeLinearLabels j

/-! ## Session state machine (spec §4.3) -/

/-- Modelled from the spec: the session lifecycle states of §4.3; the
terminal orchestrator's source is not part of the source tree, only its
specification. -/
inductive LifecycleState where
  | absent
  | worktreeOnly
  | launching
  | running
  | exited
  | attached
  deriving DecidableEq

/-- Modelled from the spec: one entry of the session listing — the branch
the session is bound to and whether the launch script's sentinel file
reports `EXITED` content. -/
structure SessionInfo where
  branch : String
  exitedSentinel : Bool
  deriving DecidableEq

/-- Modelled from the spec: the state machine's view of the two independent
signals of §4.3 — the latest worktree listing and the latest session
listing, each replaced wholesale when its poll completes. -/
structure OrchestratorState where
  worktrees : List String
  sessions : List SessionInfo
  deriving DecidableEq

/-- Modelled from the spec: a session references its worktree by branch
name, lookup only. -/
def lookupSession (sessions : List SessionInfo) (branch : String) :
    Option SessionInfo :=
  sessions.find? fun s => s.branch == branch

/-- Modelled from the spec: delivering a worktree listing replaces the
worktree axis and leaves the session axis untouched (§4.4's tie-break rule:
each axis independently trusts its most recent completed poll). -/
def applyWorktreeListing (st : OrchestratorState) (w : List String) :
    OrchestratorState :=
  { st with worktrees := w }

/-- Modelled from the spec: delivering a session listing replaces the
session axis and leaves the worktree axis untouched. -/
def applySessionListing (st : OrchestratorState) (s : List SessionInfo) :
    OrchestratorState :=
  { st with sessions := s }

/-- Modelled from the spec: the classification rules of §4.3.  Present in
the worktree listing but not the session listing is `worktreeOnly`; present
in both with the `EXITED` sentinel is `exited`; present in both without it
is `running`; a branch with no worktree is `absent`. -/
def classify (st : OrchestratorState) (branch : String) : LifecycleState :=
  match lookupSession st.sessions branch with
  | none => if st.worktrees.contains branch then .worktreeOnly else .absent
  | some info =>
    if st.worktrees.contains branch then
      if info.exitedSentinel then .exited else .running
    else .absent

/-! ## Session launcher slugify (spec §4.5) -/

/-- Modelled from the spec: the "fixed maximum length" to which a derived
branch name is truncated; the launcher's source is not part of the source
tree. -/
def maxSlugLength : Nat := 50

/-- Lower-case ASCII letter or digit. -/
def isLowerAlnum (c : Char) : Bool :=
  (97 ≤ c.toNat && c.toNat ≤ 122) || (48 ≤ c.toNat && c.toNat ≤ 57)

/-- ASCII alphanumeric. -/
def isAlnumCh (c : Char) : Bool :=
  isLowerAlnum c || (65 ≤ c.toNat && c.toNat ≤ 90)

/-- ASCII lower-casing. -/
def lowerCh (c : Char) : Char :=
  if 65 ≤ c.toNat && c.toNat ≤ 90 then Char.ofNat (c.toNat + 32) else c

/-- Modelled from the spec: each character is lower-cased if alphanumeric
and otherwise replaced by a hyphen (runs are collapsed afterwards). -/
def slugMapChar (c : Char) : Char :=
  if isAlnumCh c then lowerCh c else '-'

/-- Modelled from the spec: "non-alphanumeric runs collapsed to a single
hyphen" — adjacent hyphens left by the character map are merged. -/
def collapseDashes : List Char → List Char
  | [] => []
  | [c] => [c]
  | c :: d :: rest =>
    if c == '-' && d == '-' then collapseDashes (d :: rest)
    else c :: collapseDashes (d :: rest)

/-- Modelled from the spec: "leading/trailing hyphens trimmed". -/
def trimDashes (l : List Char) : List Char :=
  ((l.dropWhile (fun c => c == '-')).reverse.dropWhile (fun c => c == '-')).reverse

/-- Modelled from the spec (§4.5): the slugify pipeline — lower-case and
hyphenate, collapse hyphen runs, trim edge hyphens, truncate to the fixed
maximum length. -/
def slugify (title : String) : String :=
  String.mk
    ((trimDashes (collapseDashes (title.data.map slugMapChar))).take maxSlugLength)

/-- No two adjacent hyphens. -/
def noAdjacentDashes : List Char → Bool
  | c :: d :: rest => !(c == '-' && d == '-') && noAdjacentDashes (d :: rest)
  | _ => true

/-- An already-valid slug: within the maximum length, made only of
lower-case alphanumerics and single hyphens, and not starting or ending
with a hyphen. -/
def isValidSlug (s : String) : Bool :=
  s.data.length ≤ maxSlugLength &&
  s.data.all (fun c => isLowerAlnum c || c == '-') &&
  noAdjacentDashes s.data &&
  s.data.head? != some '-' &&
  s.data.getLast? != some '-'

/-! ## Task store (spec §4.2, §6) -/

/-- Modelled from the spec: a task record parsed from one task file — the
structured header fields (`id` required, `linear_id` optional, `created`)
and the free-text body; the task store's source is not part of the source
tree. -/
structure TaskRecord where
  id : String
  linearId : Option String
  created : String
  body : List String
  deriving DecidableEq

/-- Whether the first list starts with the second. -/
def startsWithChars : List Char → List Char → Bool
  | _, [] => true
  | [], _ :: _ => false
  | c :: cs, p :: ps => c == p && startsWithChars cs ps

/-- Value of a `key: value` header line, if any line carries the key. -/
def headerValue (key : String) (lines : List String) : Option String :=
  lines.findSome? fun l =>
    if startsWithChars l.data (key ++ ": ").data then
      some (String.mk (l.data.drop (key.length + 2)))
    else none

/-- Modelled from the spec: parse one task file (a list of lines) into a
task record — the header runs until the first blank line, the body follows
it; a file whose header lacks a usable `id` or `created` field is
malformed. -/
def parseTaskFile (lines : List String) : Except String TaskRecord :=
  let headerLines := lines.takeWhile (fun l => l ≠ "")
  let bodyLines := (lines.dropWhile (fun l => l ≠ "")).drop 1
  match headerValue "id" headerLines with
  | none => .error "missing id"
  | some i =>
    if i = "" then .error "empty id"
    else
      match headerValue "created" headerLines with
      | none => .error "missing created"
      | some c => .ok ⟨i, headerValue "linear_id" headerLines, c, bodyLines⟩

/-- Modelled from the spec: `list` walks the task directory's files and
fails softly — each well-formed file contributes its task, each malformed
file contributes a recorded warning instead of failing the whole listing. -/
def listTasks (files : List (List String)) : List TaskRecord × List String :=
  files.foldr
    (fun f acc =>
      match parseTaskFile f with
      | .ok t => (t :: acc.1, acc.2)
      | .error e => (acc.1, e :: acc.2))
    ([], [])

/-! ## Helper lemmas -/

theorem slugMapChar_fixed (c : Char)
    (h : isLowerAlnum c = true ∨ c = '-') : slugMapChar c = c := by
  rcases h with h | h
  · have h' := h
    simp only [isLowerAlnum, Bool.or_eq_true, Bool.and_eq_true,
      decide_eq_true_eq] at h'
    have halnum : isAlnumCh c = true := by
      simp [isAlnumCh, h]
    have hnotupper : ¬((65 ≤ c.toNat && c.toNat ≤ 90) = true) := by
      simp only [Bool.and_eq_true, decide_eq_true_eq]
      omega
    simp only [slugMapChar, halnum, if_true, ite_true, lowerCh]
    rw [if_neg hnotupper]
  · subst h
    decide

theorem map_slugMapChar_fixed :
    ∀ l : List Char, (∀ c ∈ l, isLowerAlnum c = true ∨ c = '-') →
      l.map slugMapChar = l := by
  intro l h
  induction l with
  | nil => rfl
  | cons c t ih =>
    simp only [List.map_cons]
    rw [slugMapChar_fixed c (h c (by simp)),
      ih (fun x hx => h x (by simp [hx]))]

theorem collapseDashes_of_noAdjacent :
    ∀ l : List Char, noAdjacentDashes l = true → collapseDashes l = l
  | [], _ => rfl
  | [_], _ => rfl
  | c :: d :: rest, h => by
    simp only [noAdjacentDashes, Bool.and_eq_true, Bool.not_eq_true'] at h
    simp only [collapseDashes, h.1, Bool.false_eq_true, if_false, ite_false]
    rw [collapseDashes_of_noAdjacent (d :: rest) h.2]

theorem dropWhile_dash_eq_self (l : List Char) (h : l.head? ≠ some '-') :
    l.dropWhile (fun c => c == '-') = l := by
  cases l with
  | nil => rfl
  | cons c t =>
    have hc : (c == '-') = false := by
      cases hcc : (c == '-') with
      | false => rfl
      | true =>
        exact absurd (by simp [beq_iff_eq.mp hcc]) h
    simp [List.dropWhile, hc]

theorem trimDashes_eq_self (l : List Char) (h1 : l.head? ≠ some '-')
    (h2 : l.getLast? ≠ some '-') : trimDashes l = l := by
  unfold trimDashes
  rw [dropWhile_dash_eq_self l h1,
    dropWhile_dash_eq_self l.reverse (by rwa [List.head?_reverse]),
    List.reverse_reverse]

theorem getD_map_lt (f : Char → Char) (l : List Char) (i : Nat) (d : Char)
    (h : i < l.length) : (l.map f).getD i d = f (l.getD i d) := by
  induction l generalizing i with
  | nil => simp at h
  | cons c t ih =>
    cases i with
    | zero => simp [List.getD]
    | succ j =>
      have hj : j < t.length := by simpa using h
      simpa [List.getD] using ih j hj

theorem addToHistory_length_le (prev : List String) (m : String)
    (h : prev.length ≤ MAX_HISTORY_SIZE) :
    (addToHistory prev m).length ≤ MAX_HISTORY_SIZE := by
  unfold addToHistory
  split
  · exact h
  · split
    · exact h
    · split
      · simp only [List.length_drop]
        omega
      · rename_i hng
        simp only [List.length_append, List.length_singleton] at hng ⊢
        omega

theorem foldl_addToHistory_le (msgs : List String) :
    ∀ init : List String, init.length ≤ MAX_HISTORY_SIZE →
      (msgs.foldl addToHistory init).length ≤ MAX_HISTORY_SIZE := by
  induction msgs with
  | nil => intro init h; simpa using h
  | cons m rest ih =>
    intro init h
    exact ih _ (addToHistory_length_le init m h)

theorem getD_mem_of_lt (l : List String) (i : Nat) (d : String)
    (h : i < l.length) : l.getD i d ∈ l := by
  rw [List.getD_eq_getElem l d h]
  exact List.getElem_mem h

/-! ## Claim theorems (C8, C9, C10) -/

/-- Claim C8: `maskText` returns, for any string, a string of the same
length in which every non-whitespace character is replaced by `*` and every
whitespace character is unchanged; for null/undefined or empty input it
returns the empty string. -/
theorem maskText_masks_all_nonwhitespace :
    maskText none = "" ∧ maskText (some "") = "" ∧
    ∀ s : String, (maskText (some s)).length = s.length ∧
      ∀ i : Nat, i < s.data.length →
        (maskText (some s)).data.getD i ' ' =
          (if isJsWhitespace (s.data.getD i ' ') then s.data.getD i ' '
           else '*') := by
  refine ⟨rfl, rfl, fun s => ?_⟩
  by_cases hs : s = ""
  · subst hs
    constructor
    · rfl
    · intro i hi
      simp at hi
  · constructor
    · simp only [maskText, hs, ite_false, if_neg hs]
      show (s.data.map maskChar).length = s.data.length
      exact List.length_map s.data maskChar
    · intro i hi
      simp only [maskText, hs, ite_false, if_neg hs]
      have hmap : ((String.mk (s.data.map maskChar)).data).getD i ' ' =
          maskChar (s.data.getD i ' ') := getD_map_lt maskChar s.data i ' ' hi
      rw [hmap]
      rfl

/-- Claim C8 witness: concrete evaluation of the masking property. -/
theorem maskText_masks_witness :
    (maskText (some "a b")).data.getD 0 ' ' =
      (if isJsWhitespace (("a b").data.getD 0 ' ') then ("a b").data.getD 0 ' '
       else '*') :=
  (maskText_masks_all_nonwhitespace.2.2 "a b").2 0 (by decide)

/-- Claim C9: the input history holds at most 100 entries with the oldest
dropped first when the bound is exceeded, blank (whitespace-only) messages
are never added, and a message equal to the current last entry is not
appended a second time. -/
theorem addToHistory_invariants :
    (∀ msgs : List String,
      (msgs.foldl addToHistory []).length ≤ MAX_HISTORY_SIZE) ∧
    (∀ (prev : List String) (m : String), jsTrimmedEmpty m = true →
      addToHistory prev m = prev) ∧
    (∀ (prev : List String) (m : String), prev.getLast? = some m →
      addToHistory prev m = prev) ∧
    (∀ (prev : List String) (m : String), prev.length = MAX_HISTORY_SIZE →
      jsTrimmedEmpty m = false → prev.getLast? ≠ some m →
      addToHistory prev m = prev.drop 1 ++ [m]) := by
  refine ⟨fun msgs => foldl_addToHistory_le msgs [] (by decide),
          fun prev m h => by simp [addToHistory, h],
          fun prev m h => by simp [addToHistory, h],
          fun prev m hlen htrim hlast => ?_⟩
  have hlen' : (prev ++ [m]).length = MAX_HISTORY_SIZE + 1 := by
    simp [hlen]
  unfold addToHistory
  rw [if_neg (by simp [htrim]), if_neg hlast,
    if_pos (by rw [hlen']; omega), hlen']
  have h1 : MAX_HISTORY_SIZE + 1 - MAX_HISTORY_SIZE = 1 := by omega
  rw [h1, List.drop_append_of_le_length (by rw [hlen]; simp [MAX_HISTORY_SIZE])]

/-- Claim C9 witness: blank and duplicate messages are not appended, and
a full history drops its oldest entry. -/
theorem addToHistory_invariants_witness :
    addToHistory ["a"] "  " = ["a"] ∧
    addToHistory ["a"] "a" = ["a"] ∧
    addToHistory (List.replicate 100 "x") "y" =
      (List.replicate 100 "x").drop 1 ++ ["y"] :=
  ⟨addToHistory_invariants.2.1 ["a"] "  " (by decide),
   addToHistory_invariants.2.2.1 ["a"] "a" (by decide),
   addToHistory_invariants.2.2.2 (List.replicate 100 "x") "y" (by decide)
     (by decide) (by decide)⟩

/-- Claim C10: `getProjectColor` is total and deterministic: a provided
(non-empty) custom color is returned unchanged, the hash index
`Math.abs(hash) % 10` always lies within the 10-entry palette, and without a
usable custom color the result is always one of the palette colors. -/
theorem getProjectColor_total :
    (∀ (id : String) (c : String), c ≠ "" →
      getProjectColor id (some c) = c) ∧
    (∀ id : String,
      (jsStringHash id).natAbs % PROJECT_COLORS.length < PROJECT_COLORS.length) ∧
    (∀ id : String, getProjectColor id none ∈ PROJECT_COLORS) ∧
    (∀ id : String, getProjectColor id (some "") ∈ PROJECT_COLORS) := by
  have hidx : ∀ id : String,
      (jsStringHash id).natAbs % PROJECT_COLORS.length < PROJECT_COLORS.length :=
    fun id => Nat.mod_lt _ (by decide)
  refine ⟨fun id c hc => by simp [getProjectColor, hc], hidx, fun id => ?_, fun id => ?_⟩
  · exact getD_mem_of_lt _ _ _ (hidx id)
  · simp only [getProjectColor, ne_eq, not_true_eq_false, if_false, ite_false]
    exact getD_mem_of_lt _ _ _ (hidx id)

/-- Claim C10 witness: a concrete custom color is returned unchanged. -/
theorem getProjectColor_total_witness :
    getProjectColor "proj-1" (some "#123456") = "#123456" :=
  getProjectColor_total.1 "proj-1" "#123456" (by decide)

/-- Claim C1: whenever a branch's worktree is present in the worktree
listing and its session is present in the session listing with the `EXITED`
sentinel, the state machine classifies the branch as `exited` and never as
`running`, whichever poll delivered each listing first. -/
theorem exited_sentinel_never_running :
    ∀ (st₀ : OrchestratorState) (w : List String) (s : List SessionInfo)
      (b : String) (info : SessionInfo),
      w.contains b = true → lookupSession s b = some info →
      info.exitedSentinel = true →
      (classify (applySessionListing (applyWorktreeListing st₀ w) s) b =
        .exited ∧
       classify (applyWorktreeListing (applySessionListing st₀ s) w) b =
        .exited ∧
       classify (applySessionListing (applyWorktreeListing st₀ w) s) b ≠
        .running ∧
       classify (applyWorktreeListing (applySessionListing st₀ s) w) b ≠
        .running) := by
  intro st₀ w s b info hw hs hx
  have hw' : b ∈ w := by simpa using hw
  have h1 : classify (applySessionListing (applyWorktreeListing st₀ w) s) b =
      .exited := by
    simp [classify, applySessionListing, applyWorktreeListing, hs, hw', hx]
  have h2 : classify (applyWorktreeListing (applySessionListing st₀ s) w) b =
      .exited := by
    simp [classify, applySessionListing, applyWorktreeListing, hs, hw', hx]
  exact ⟨h1, h2, by rw [h1]; decide, by rw [h2]; decide⟩

/-- Claim C1 witness: a concrete snapshot with an `EXITED` sentinel
classifies as exited in both delivery orders. -/
theorem exited_sentinel_never_running_witness :
    classify (applySessionListing
      (applyWorktreeListing ⟨[], []⟩ ["fix-login-bug"])
      [⟨"fix-login-bug", true⟩]) "fix-login-bug" = .exited ∧
    classify (applyWorktreeListing
      (applySessionListing ⟨[], []⟩ [⟨"fix-login-bug", true⟩])
      ["fix-login-bug"]) "fix-login-bug" ≠ .running := by
  have h := exited_sentinel_never_running ⟨[], []⟩ ["fix-login-bug"]
    [⟨"fix-login-bug", true⟩] "fix-login-bug" ⟨"fix-login-bug", true⟩
    (by decide) (by decide) rfl
  exact ⟨h.1, h.2.2.2⟩

/-- Claim C2: the merge of the two listings is commutative in arrival
order: for the same snapshot, applying the worktree listing then the
session listing yields the same aggregate state — and hence the same
classification for every branch — as the opposite order. -/
theorem listing_merge_commutative :
    ∀ (st : OrchestratorState) (w : List String) (s : List SessionInfo),
      applySessionListing (applyWorktreeListing st w) s =
        applyWorktreeListing (applySessionListing st s) w ∧
      ∀ b : String,
        classify (applySessionListing (applyWorktreeListing st w) s) b =
          classify (applyWorktreeListing (applySessionListing st s) w) b :=
  fun _ _ _ => ⟨rfl, fun _ => rfl⟩

/-- Claim C4: Task Store `list` on a directory with one malformed and two
valid task files returns exactly the two parsed tasks plus one recorded
warning — not an empty list and not a listing-wide error (the listing's
type carries no failure case at all; the general first conjunct shows every
well-formed file's task is kept). -/
theorem taskStore_list_soft_failure :
    (∀ files : List (List String), (listTasks files).1 =
      files.filterMap (fun f => (parseTaskFile f).toOption)) ∧
    (∀ (f₁ g f₂ : List String) (t₁ t₂ : TaskRecord) (e : String),
      parseTaskFile f₁ = .ok t₁ → parseTaskFile g = .error e →
      parseTaskFile f₂ = .ok t₂ →
      listTasks [f₁, g, f₂] = ([t₁, t₂], [e]) ∧
      (listTasks [f₁, g, f₂]).1 ≠ []) := by
  constructor
  · intro files
    induction files with
    | nil => rfl
    | cons f rest ih =>
      simp only [listTasks, List.foldr_cons, List.filterMap_cons] at *
      cases hp : parseTaskFile f with
      | ok t => simp [hp, Except.toOption, ih]
      | error err => simp [hp, Except.toOption, ih]
  · intro f₁ g f₂ t₁ t₂ e h1 h2 h3
    constructor
    · simp [listTasks, h1, h2, h3]
    · simp [listTasks, h1, h2, h3]

/-- Claim C4 witness: a concrete directory of two valid files and one
malformed file lists both tasks and the one warning. -/
theorem taskStore_list_soft_failure_witness :
    listTasks [["id: a", "created: 2024-01-01", "", "body"], ["garbage"],
      ["id: b", "created: 2024-01-02"]] =
      ([⟨"a", none, "2024-01-01", ["body"]⟩, ⟨"b", none, "2024-01-02", []⟩],
       ["missing id"]) :=
  (taskStore_list_soft_failure.2
    ["id: a", "created: 2024-01-01", "", "body"] ["garbage"]
    ["id: b", "created: 2024-01-02"]
    ⟨"a", none, "2024-01-01", ["body"]⟩ ⟨"b", none, "2024-01-02", []⟩
    "missing id" rfl rfl rfl).1

/-- Claim C3: slugify is a pure deterministic function — re-slugifying an
already-valid slug returns it unchanged, and the title "Fix login bug!!"
derives the branch `fix-login-bug`. -/
theorem slugify_pure_idempotent :
    (∀ s : String, isValidSlug s = true → slugify s = s) ∧
    slugify "Fix login bug!!" = "fix-login-bug" := by
  refine ⟨fun s hv => ?_, by rfl⟩
  simp only [isValidSlug, Bool.and_eq_true, decide_eq_true_eq,
    List.all_eq_true, Bool.or_eq_true, bne_iff_ne, ne_eq] at hv
  obtain ⟨⟨⟨⟨hlen, hall⟩, hadj⟩, hhead⟩, hlast⟩ := hv
  unfold slugify
  rw [map_slugMapChar_fixed s.data
      (fun c hc => by rcases hall c hc with h | h
                      · exact Or.inl h
                      · exact Or.inr (beq_iff_eq.mp h)),
    collapseDashes_of_noAdjacent s.data hadj,
    trimDashes_eq_self s.data hhead hlast,
    List.take_of_length_le hlen]

/-- Claim C3 witness: a concrete valid slug is unchanged, and the concrete
title derives the expected branch. -/
theorem slugify_pure_idempotent_witness :
    slugify "abc-def" = "abc-def" ∧ slugify "Fix login bug!!" = "fix-login-bug" :=
  ⟨slugify_pure_idempotent.1 "abc-def" (by decide),
   slugify_pure_idempotent.2⟩

/-- Sanity check of the JSON embedding: a well-formed Linear labels
payload decodes to its labels. -/
example :
    parseLinearLabels
      (some "[ \x7b \"id\": \"L1\", \"name\": \"bug\", \"color\": \"ff0000\" \x7d ]") =
    [⟨"L1", "bug", "ff0000"⟩] := rfl

/-- Claim C6: parsing the Linear labels JSON never propagates an error:
`null` input or input on which `JSON.parse` fails yields the empty label
list. -/
theorem parseLinearLabels_never_errors :
    parseLinearLabels none = [] ∧
    ∀ s : String, parseJson s = none → parseLinearLabels (some s) = [] := by
  refine ⟨rfl, fun s h => ?_⟩
  by_cases hs : s = ""
  · simp [parseLinearLabels, hs]
  · simp [parseLinearLabels, hs, h]

/-- Claim C6 witness: a concrete non-JSON input parses to no data. -/
theorem parseLinearLabels_never_errors_witness :
    parseJson "x" = none ∧ parseLinearLabels (some "x") = [] :=
  ⟨rfl, parseLinearLabels_never_errors.2 "x" rfl⟩

/-- Claim C7: the PR state domain is exactly open/merged/closed, rendering
is total over it: `getPrStatusBadge` returns a labeled badge ("Merged" or
"Closed") exactly when the state is merged or closed and no badge when the
state is open or absent; an absent or pending checks status renders as
pending, success as passed, and every other value as failed. -/
theorem pr_status_rendering_total :
    (∀ st : Option MergeStatus,
      getPrStatusBadge st = none ↔ (st = none ∨ st = some .openPR)) ∧
    ((getPrStatusBadge (some .merged)).map PrBadge.label =
      some (some "Merged")) ∧
    ((getPrStatusBadge (some .closed)).map PrBadge.label =
      some (some "Closed")) ∧
    (∀ st : Option ChecksStatus,
      getChecksIcon st = .checksPending ↔ (st = none ∨ st = some .pending)) ∧
    (getChecksIcon (some .success) = .checksPassed) ∧
    (∀ st : Option ChecksStatus,
      getChecksIcon st = .checksFailed ↔ st = some .failure) := by
  refine ⟨fun st => ?_, by decide, by decide, fun st => ?_, by decide, fun st => ?_⟩
  · rcases st with _ | s
    · simp [getPrStatusBadge]
    · cases s <;> simp [getPrStatusBadge]
  · rcases st with _ | s
    · simp [getChecksIcon]
    · cases s <;> simp [getChecksIcon]
  · rcases st with _ | s
    · simp [getChecksIcon]
    · cases s <;> simp [getChecksIcon]

/-- Claim C5: tool-not-installed and tool-not-authenticated are
independently detectable error values of the bind-pull-request operation,
distinct from each other and from PR-not-found, each surfaced as its own
message, and the handler performs at most one `bindPR` invocation (no
retry). -/
theorem bindpr_error_modes_distinct :
    (BindPRErrorType.githubCliNotInstalled ≠ BindPRErrorType.githubCliNotLoggedIn) ∧
    (∀ msg, bindErrorMessage .githubCliNotInstalled msg ≠
      bindErrorMessage .githubCliNotLoggedIn msg) ∧
    (∀ n msg, bindErrorMessage (.prNotFoundOrNoAccess n) msg ≠
      bindErrorMessage .githubCliNotInstalled msg) ∧
    (∀ n msg, bindErrorMessage (.prNotFoundOrNoAccess n) msg ≠
      bindErrorMessage .githubCliNotLoggedIn msg) ∧
    (∀ sel res, (handleConfirmBind sel res).2 ≤ 1) ∧
    (∀ (pr : Nat) (res : BindResult) (e : BindPRErrorType),
      res.success = false → res.error = some e →
      (handleConfirmBind (some pr) res).1 =
        .errorShown (bindErrorMessage e res.message)) := by
  refine ⟨by decide, fun msg => by simp [bindErrorMessage],
    fun n msg => by simp [bindErrorMessage],
    fun n msg => by simp [bindErrorMessage],
    fun sel res => ?_, fun pr res e hs he => ?_⟩
  · rcases sel with _ | p
    · simp [handleConfirmBind]
    · simp only [handleConfirmBind]
      split <;> first | simp | (split <;> simp)
  · simp [handleConfirmBind, hs, he]

/-- Claim C5 witness: the two CLI failure modes yield their own distinct
messages from a single non-retried invocation. -/
theorem bindpr_error_modes_witness :
    (handleConfirmBind (some 7)
        ⟨false, some .githubCliNotInstalled, none⟩).1 =
      .errorShown (bindErrorMessage .githubCliNotInstalled none) ∧
    (handleConfirmBind (some 7)
        ⟨false, some .githubCliNotLoggedIn, none⟩).1 =
      .errorShown (bindErrorMessage .githubCliNotLoggedIn none) ∧
    bindErrorMessage .githubCliNotInstalled none ≠
      bindErrorMessage .githubCliNotLoggedIn none :=
  ⟨bindpr_error_modes_distinct.2.2.2.2.2 7
      ⟨false, some .githubCliNotInstalled, none⟩ .githubCliNotInstalled rfl rfl,
   bindpr_error_modes_distinct.2.2.2.2.2 7
      ⟨false, some .githubCliNotLoggedIn, none⟩ .githubCliNotLoggedIn rfl rfl,
   bindpr_error_modes_distinct.2.1 none⟩
